import Mathlib

/-!
Verification development for the Mobasher ingestion/orchestration core.

The definitions below are a shallow embedding of the Python source:
`mobasher/ingestion/recorder.py`, `mobasher/storage/repositories.py`,
`mobasher/storage/retention_jobs.py`, `mobasher/asr/enqueue.py`,
`mobasher/api/routers.py` and `mobasher/vision/worker.py`.
Machine integers are modelled as `Nat`/`Int` (with explicit reduction
modulo 2^32 inside SHA-1), decimal float literals of the source as exact
rationals, Python `datetime` values as UTC calendar components, and
fallible operations as `Option`/`Except`.
-/

namespace Mobasher

/-- UTC timestamp as calendar components, the shape produced by
`datetime.strptime(date_token + time_token, "%Y%m%d%H%M%S")` in
`recorder._parse_start_only`. -/
structure DateTime where
  year : Nat
  month : Nat
  day : Nat
  hour : Nat
  minute : Nat
  second : Nat
deriving DecidableEq, Repr

/-- Gregorian leap-year rule. -/
def isLeap (y : Nat) : Bool :=
  (y % 4 == 0 && y % 100 != 0) || y % 400 == 0

/-- Number of days in a month (1-12) of year `y`. -/
def daysInMonth (y m : Nat) : Nat :=
  if m == 2 then (if isLeap y then 29 else 28)
  else if m == 4 || m == 6 || m == 9 || m == 11 then 30
  else 31

/-- Calendar validity, as enforced by `datetime.strptime`. -/
def DateTime.valid (t : DateTime) : Bool :=
  1 ≤ t.month && t.month ≤ 12 && 1 ≤ t.day && t.day ≤ daysInMonth t.year t.month
    && t.hour < 24 && t.minute < 60 && t.second < 60

/-- Days since year 1, month 1, day 1 (proleptic Gregorian). -/
def DateTime.dayNumber (t : DateTime) : Nat :=
  let y := t.year - 1
  let leapDays := y / 4 - y / 100 + y / 400
  let monthDays := (List.range (t.month - 1)).foldl (fun acc i => acc + daysInMonth t.year (i + 1)) 0
  y * 365 + leapDays + monthDays + (t.day - 1)

/-- Total seconds since year 1; a strictly monotone linearisation giving the
instant order that Python `datetime` comparison uses. -/
def DateTime.toSec (t : DateTime) : Nat :=
  ((t.dayNumber * 24 + t.hour) * 60 + t.minute) * 60 + t.second

/-- Python `datetime` `<` comparison (instant order; both values are UTC). -/
def DateTime.ltB (a b : DateTime) : Bool :=
  a.toSec < b.toSec

/-- Zero-pad a decimal rendering of `n` to width `w`. -/
def padNum (w n : Nat) : String :=
  let s := toString n
  String.mk (List.replicate (w - s.length) '0') ++ s

/-- Python `datetime.isoformat()` for a tz-aware UTC value, e.g.
`2025-01-01T12:00:00+00:00`. -/
def DateTime.isoformat (t : DateTime) : String :=
  padNum 4 t.year ++ "-" ++ padNum 2 t.month ++ "-" ++ padNum 2 t.day ++ "T"
    ++ padNum 2 t.hour ++ ":" ++ padNum 2 t.minute ++ ":" ++ padNum 2 t.second
    ++ "+00:00"

/-- UTF-8 encoding of one character. -/
def utf8Char (c : Char) : List Nat :=
  let n := c.toNat
  if n < 128 then [n]
  else if n < 2048 then
    [192 ||| (n >>> 6), 128 ||| (n &&& 63)]
  else if n < 65536 then
    [224 ||| (n >>> 12), 128 ||| ((n >>> 6) &&& 63), 128 ||| (n &&& 63)]
  else
    [240 ||| (n >>> 18), 128 ||| ((n >>> 12) &&& 63), 128 ||| ((n >>> 6) &&& 63), 128 ||| (n &&& 63)]

/-- UTF-8 bytes of a string (`str.encode("utf-8")`). -/
def strBytes (s : String) : List Nat :=
  (s.data.map utf8Char).flatten

/-! SHA-1, as used by `uuid.uuid5`. 32-bit words are `Nat` values reduced
modulo 2^32. -/

/-- Reduce to a 32-bit word. -/
def w32 (n : Nat) : Nat := n % 4294967296

/-- Rotate a 32-bit word left by `b` bits. -/
def rotl (b n : Nat) : Nat :=
  w32 (n <<< b) ||| (w32 n >>> (32 - b))

/-- Big-endian byte rendering of `n` in `w` bytes. -/
def bytesBE (w n : Nat) : List Nat :=
  (List.range w).map (fun i => n >>> (8 * (w - 1 - i)) &&& 255)

/-- SHA-1 message padding: append `0x80`, zeros to 56 mod 64, then the
bit length as 8 big-endian bytes. -/
def sha1Pad (msg : List Nat) : List Nat :=
  let k := (119 - (msg.length % 64)) % 64
  msg ++ [128] ++ List.replicate k 0 ++ bytesBE 8 (msg.length * 8)

/-- Split into 64-byte chunks. -/
def chunks64 : List Nat → List (List Nat)
  | [] => []
  | l@(_ :: _) => l.take 64 :: chunks64 (l.drop 64)
termination_by l => l.length
decreasing_by simp_all [List.drop]; omega

/-- The 16 big-endian 32-bit words of a 64-byte chunk. -/
def sha1Words (chunk : List Nat) : Array Nat :=
  ((List.range 16).map (fun i =>
    (chunk.getD (4 * i) 0) <<< 24 ||| (chunk.getD (4 * i + 1) 0) <<< 16
      ||| (chunk.getD (4 * i + 2) 0) <<< 8 ||| chunk.getD (4 * i + 3) 0)).toArray

/-- Extend 16 words to the 80-word schedule. -/
def sha1Extend (ws : Array Nat) : Array Nat :=
  (List.range 64).foldl
    (fun a i =>
      a.push (rotl 1 ((a.getD (i + 13) 0) ^^^ (a.getD (i + 8) 0) ^^^ (a.getD (i + 2) 0) ^^^ a.getD i 0)))
    ws

/-- SHA-1 round nonlinear function. -/
def sha1F (t b c d : Nat) : Nat :=
  if t < 20 then (b &&& c) ||| ((b ^^^ 4294967295) &&& d)
  else if t < 40 then b ^^^ c ^^^ d
  else if t < 60 then (b &&& c) ||| (b &&& d) ||| (c &&& d)
  else b ^^^ c ^^^ d

/-- SHA-1 round constant. -/
def sha1K (t : Nat) : Nat :=
  if t < 20 then 1518500249
  else if t < 40 then 1859775393
  else if t < 60 then 2400959708
  else 3395469782

/-- Compress one 64-byte chunk into the running state `(h0, …, h4)`. -/
def sha1Chunk (h : Nat × Nat × Nat × Nat × Nat) (chunk : List Nat) :
    Nat × Nat × Nat × Nat × Nat :=
  let w := sha1Extend (sha1Words chunk)
  let (h0, h1, h2, h3, h4) := h
  let (a, b, c, d, e) :=
    (List.range 80).foldl
      (fun (st : Nat × Nat × Nat × Nat × Nat) t =>
        let (a, b, c, d, e) := st
        let temp := w32 (rotl 5 a + sha1F t b c d + e + sha1K t + w.getD t 0)
        (temp, a, rotl 30 b, c, d))
      (h0, h1, h2, h3, h4)
  (w32 (h0 + a), w32 (h1 + b), w32 (h2 + c), w32 (h3 + d), w32 (h4 + e))

/-- SHA-1 digest (20 bytes) of a byte string. -/
def sha1 (msg : List Nat) : List Nat :=
  let (h0, h1, h2, h3, h4) :=
    (chunks64 (sha1Pad msg)).foldl sha1Chunk
      (1732584193, 4023233417, 2562383102, 271733878, 3285377520)
  bytesBE 4 h0 ++ bytesBE 4 h1 ++ bytesBE 4 h2 ++ bytesBE 4 h3 ++ bytesBE 4 h4

/-- The 16 bytes of `uuid.NAMESPACE_DNS`. -/
def namespaceDNS : List Nat :=
  [107, 167, 184, 16, 157, 173, 17, 209, 128, 180, 0, 192, 79, 212, 48, 200]

/-- Python `uuid.uuid5(ns, name)`: SHA-1 of namespace bytes followed by the
UTF-8 name, truncated to 16 bytes with the version and variant bits set. -/
def uuid5 (ns : List Nat) (name : String) : List Nat :=
  let h := (sha1 (ns ++ strBytes name)).take 16
  h.mapIdx (fun i b =>
    if i = 6 then (b &&& 15) ||| 80
    else if i = 8 then (b &&& 63) ||| 128
    else b)

/-- Translation of `DualHLSRecorder._segment_uuid`:
`uuid5(NAMESPACE_DNS, f"{channel_id}:{started_at.isoformat()}")`. -/
def segmentUuid (channelId : String) (startedAt : DateTime) : List Nat :=
  uuid5 namespaceDNS (channelId ++ ":" ++ startedAt.isoformat)

/-! The segment detector (`DualHLSRecorder._collect_segments`,
`_parse_start_only`, `_persist_segment`, `_cleanup_partials`). -/

/-- Recorder configuration fields consulted by the detector. -/
structure RecorderCfg where
  channelId : String
  sampleRate : Nat
  channels : Nat
  segmentSeconds : Nat
deriving DecidableEq, Repr

/-- Per-run recorder state (`self.recording_id`, `self.run_started_at`). -/
structure RunState where
  recordingId : Option String
  runStartedAt : Option DateTime
deriving DecidableEq, Repr

/-- Media leg of a collected file. -/
inductive MediaType
  | audio
  | video
deriving DecidableEq, Repr

/-- One file found by the directory glob. `suffix` is `fp.suffix.lower()`,
`size` is `fp.stat().st_size`, and `duration` is what `ffprobe` would
report for the file (`none` when probing fails). -/
structure FileEntry where
  path : String
  name : String
  size : Nat
  suffix : String
  duration : Option ℚ
deriving DecidableEq, Repr

/-- Split a character list on a separator, Python `str.split(sep)` for a
one-character separator. -/
def splitChar (sep : Char) : List Char → List (List Char)
  | [] => [[]]
  | c :: cs =>
    let r := splitChar sep cs
    if c = sep then [] :: r
    else
      match r with
      | [] => [[c]]
      | g :: gs => (c :: g) :: gs

/-- Stem of a filename, `filename.rsplit(".", 1)[0]`: everything before
the last dot, or the whole name when there is none. -/
def stemChars (l : List Char) : List Char :=
  if '.' ∈ l then ((l.reverse.dropWhile (fun c => c ≠ '.')).drop 1).reverse else l

/-- Decimal value of a digit token. -/
def digitsVal (l : List Char) : Nat :=
  l.foldl (fun acc c => acc * 10 + (c.toNat - 48)) 0

/-- Translation of `DualHLSRecorder._parse_start_only`: split the stem on
`-`, read the last two tokens as `YYYYMMDD` and `HHMMSS`, build a UTC
instant (digit- and calendar-validated, as `datetime.strptime` is), and
set `ended_at = started_at + segment_seconds`. Returns
`(started_at, ended_at in absolute seconds)` or `none` on any failure. -/
def parseStartOnly (segmentSeconds : Nat) (filename : String) : Option (DateTime × Nat) :=
  let parts := splitChar '-' (stemChars filename.data)
  if parts.length ≥ 2 then
    let dateTok := parts.getD (parts.length - 2) []
    let timeTok := parts.getD (parts.length - 1) []
    if dateTok.length = 8 && timeTok.length = 6 && (dateTok ++ timeTok).all Char.isDigit then
      let t : DateTime :=
        ⟨digitsVal (dateTok.take 4), digitsVal ((dateTok.drop 4).take 2),
          digitsVal (dateTok.drop 6), digitsVal (timeTok.take 2),
          digitsVal ((timeTok.drop 2).take 2), digitsVal (timeTok.drop 4)⟩
      if 1 ≤ t.year && t.valid then some (t, t.toSec + segmentSeconds) else none
    else none
  else none

/-- The full-segment gate of `_collect_segments`: the body of the
`try` block before `continue`, deciding whether the file is admitted.
The decimal `0.85` of the source is the exact rational `85/100`; the
`.wav` comparison `size < expected * 0.85` is written with denominators
cleared so that it stays in `Nat`. -/
def gatePasses (cfg : RecorderCfg) (f : FileEntry) : Bool :=
  if f.suffix == ".wav" then
    let expected := cfg.sampleRate * cfg.channels * 2 * cfg.segmentSeconds
    !decide (f.size * 100 < expected * 85)
  else if f.suffix == ".mp4" || f.suffix == ".mkv" then
    !decide (f.size < 500000)
  else
    !decide (f.size < 100000)

/-- A persisted `segments` row (the columns written by the core). -/
structure SegmentRow where
  id : List Nat
  recordingId : Option String
  channelId : String
  startedAt : DateTime
  endedAt : Nat
  audioPath : Option String
  videoPath : Option String
  fileSizeBytes : Option Nat
  status : String
deriving DecidableEq, Repr

/-- The `segments` table, keyed by the composite primary key
`(id, started_at)` (at most one row per key in a well-formed store). -/
abbrev SegmentDB := List SegmentRow

/-- Primary-key lookup, `session.get(Segment, (seg_id, started_at))`. -/
def findSegment (db : SegmentDB) (segId : List Nat) (startedAt : DateTime) : Option SegmentRow :=
  db.find? (fun r => decide (r.id = segId ∧ r.startedAt = startedAt))

/-- Python truthiness of an optional string: `None` and `""` are falsy. -/
def pyTruthyStr : Option String → Bool
  | none => false
  | some s => !s.isEmpty

/-- The update branch of `_persist_segment` on an existing row: fill a
media path only when the stored one is falsy, raise the file size when the
stored one is falsy or smaller, then overwrite `ended_at` and `status`. -/
def persistUpdate (mediaType : MediaType) (path : String) (size : Nat) (endedAt : Nat)
    (r : SegmentRow) : SegmentRow :=
  let r := if mediaType = .audio ∧ ¬ pyTruthyStr r.audioPath = true then
      { r with audioPath := some path } else r
  let r := if mediaType = .video ∧ ¬ pyTruthyStr r.videoPath = true then
      { r with videoPath := some path } else r
  let r := if r.fileSizeBytes.getD 0 = 0 ∨ size > r.fileSizeBytes.getD 0 then
      { r with fileSizeBytes := some size } else r
  { r with endedAt := endedAt, status := "completed" }

/-- Translation of `DualHLSRecorder._persist_segment`: do nothing without
an active run or for a file whose start predates the run; otherwise insert
a fresh row under the derived id, or merge into the existing row. -/
def persistSegment (cfg : RecorderCfg) (run : RunState) (startedAt : DateTime) (endedAt : Nat)
    (mediaType : MediaType) (path : String) (size : Nat) (db : SegmentDB) : SegmentDB :=
  match run.recordingId, run.runStartedAt with
  | some recId, some runStart =>
    if startedAt.ltB runStart then db
    else
      let segId := segmentUuid cfg.channelId startedAt
      match findSegment db segId startedAt with
      | none =>
        db ++ [{ id := segId, recordingId := some recId, channelId := cfg.channelId,
                 startedAt := startedAt, endedAt := endedAt,
                 audioPath := if mediaType = .audio then some path else none,
                 videoPath := if mediaType = .video then some path else none,
                 fileSizeBytes := some size, status := "completed" }]
      | some _ =>
        db.map (fun r => if r.id = segId ∧ r.startedAt = startedAt then
          persistUpdate mediaType path size endedAt r else r)
  | _, _ => db

/-- Database effect of one loop iteration of `_collect_segments` on one
globbed file: apply the gate, parse the filename, persist on success. -/
def processFile (cfg : RecorderCfg) (run : RunState) (mediaType : MediaType)
    (db : SegmentDB) (f : FileEntry) : SegmentDB :=
  if gatePasses cfg f then
    match parseStartOnly cfg.segmentSeconds f.name with
    | some (startedAt, endedAt) =>
      persistSegment cfg run startedAt endedAt mediaType f.path f.size db
    | none => db
  else db

/-- In-memory record appended to the detector's output list for one file
(`none` when the file is skipped by the gate or fails to parse). -/
structure SegRecordOut where
  path : String
  channelId : String
  recordingId : Option String
  mediaType : MediaType
  startedAt : DateTime
  endedAt : Nat
deriving DecidableEq, Repr

/-- Output record of one loop iteration of `_collect_segments`. -/
def fileRecord (cfg : RecorderCfg) (run : RunState) (mediaType : MediaType)
    (f : FileEntry) : Option SegRecordOut :=
  if gatePasses cfg f then
    match parseStartOnly cfg.segmentSeconds f.name with
    | some (startedAt, endedAt) =>
      some ⟨f.path, cfg.channelId, run.recordingId, mediaType, startedAt, endedAt⟩
    | none => none
  else none

/-- Translation of `_collect_segments`: fold the loop over the globbed
files, returning the updated table and the in-memory segment list. -/
def collectSegments (cfg : RecorderCfg) (run : RunState) (mediaType : MediaType)
    (files : List FileEntry) (db : SegmentDB) : SegmentDB × List SegRecordOut :=
  files.foldl
    (fun st f => (processFile cfg run mediaType st.1 f, st.2 ++ (fileRecord cfg run mediaType f).toList))
    (db, [])

/-- Database effect of a whole detector pass over a list of
`(media type, file)` jobs (the audio glob followed by the video glob). -/
def detectorPass (cfg : RecorderCfg) (run : RunState)
    (jobs : List (MediaType × FileEntry)) (db : SegmentDB) : SegmentDB :=
  jobs.foldl (fun db j => processFile cfg run j.1 db j.2) db

/-- Composite key of a stored row. -/
def segKey (r : SegmentRow) : List Nat × DateTime := (r.id, r.startedAt)

/-- Keys of the stored rows, in order. -/
def dbKeys (db : SegmentDB) : List (List Nat × DateTime) := db.map segKey

/-- The key `processFile` writes to, if any: `none` when the gate rejects
the file, the name fails to parse, no run is active, or the file predates
the run. -/
def effKey (cfg : RecorderCfg) (run : RunState) (f : FileEntry) :
    Option (List Nat × DateTime) :=
  match run.recordingId, run.runStartedAt with
  | some _, some runStart =>
    if gatePasses cfg f then
      match parseStartOnly cfg.segmentSeconds f.name with
      | some (t, _) =>
        if t.ltB runStart then none else some (segmentUuid cfg.channelId t, t)
      | none => none
    else none
  | _, _ => none

theorem segKey_persistUpdate (mt : MediaType) (p : String) (s e : Nat) (r : SegmentRow) :
    segKey (persistUpdate mt p s e r) = segKey r := by
  simp only [persistUpdate, segKey]
  split_ifs <;> rfl

theorem mem_dbKeys (db : SegmentDB) (k : List Nat × DateTime) :
    k ∈ dbKeys db ↔ ∃ r ∈ db, segKey r = k := by
  simp [dbKeys, List.mem_map]

theorem findSegment_eq_none_iff (db : SegmentDB) (segId : List Nat) (t : DateTime) :
    findSegment db segId t = none ↔ ∀ r ∈ db, ¬(r.id = segId ∧ r.startedAt = t) := by
  simp [findSegment, List.find?_eq_none]

theorem dbKeys_update_map (db : SegmentDB) (segId : List Nat) (t : DateTime)
    (mt : MediaType) (p : String) (s e : Nat) :
    dbKeys (db.map (fun r => if r.id = segId ∧ r.startedAt = t then
      persistUpdate mt p s e r else r)) = dbKeys db := by
  unfold dbKeys
  rw [List.map_map]
  refine List.map_congr_left (fun r _ => ?_)
  by_cases h : r.id = segId ∧ r.startedAt = t <;>
    simp [h, segKey_persistUpdate]

theorem dbKeys_persistSegment (cfg : RecorderCfg) (run : RunState) (t : DateTime)
    (e : Nat) (mt : MediaType) (p : String) (s : Nat) (db : SegmentDB) :
    dbKeys (persistSegment cfg run t e mt p s db) = dbKeys db ∨
      dbKeys (persistSegment cfg run t e mt p s db)
        = dbKeys db ++ [(segmentUuid cfg.channelId t, t)] := by
  unfold persistSegment
  match hrec : run.recordingId, hstart : run.runStartedAt with
  | none, _ => left; rfl
  | some recId, none => left; rfl
  | some recId, some runStart =>
    by_cases hlt : t.ltB runStart = true
    · left; simp [hlt]
    · simp only [hlt]
      match hfind : findSegment db (segmentUuid cfg.channelId t) t with
      | none =>
        right
        simp [dbKeys, segKey]
      | some r0 =>
        left
        simpa using dbKeys_update_map db (segmentUuid cfg.channelId t) t mt p s e

theorem processFile_keys_cases (cfg : RecorderCfg) (run : RunState) (mt : MediaType)
    (db : SegmentDB) (f : FileEntry) :
    dbKeys (processFile cfg run mt db f) = dbKeys db ∨
      ∃ k, effKey cfg run f = some k ∧
        dbKeys (processFile cfg run mt db f) = dbKeys db ++ [k] := by
  unfold processFile effKey
  match hrec : run.recordingId, hstart : run.runStartedAt with
  | none, _ =>
    by_cases hg : gatePasses cfg f = true
    · simp only [hg, if_pos]
      match hp : parseStartOnly cfg.segmentSeconds f.name with
      | some (t, e) => left; unfold persistSegment; rw [hrec]
      | none => left; rfl
    · left; simp [hg]
  | some recId, none =>
    by_cases hg : gatePasses cfg f = true
    · simp only [hg, if_pos]
      match hp : parseStartOnly cfg.segmentSeconds f.name with
      | some (t, e) => left; unfold persistSegment; rw [hrec, hstart]
      | none => left; rfl
    · left; simp [hg]
  | some recId, some runStart =>
    by_cases hg : gatePasses cfg f = true
    · simp only [hg, if_pos, if_true]
      match hp : parseStartOnly cfg.segmentSeconds f.name with
      | some (t, e) =>
        by_cases hlt : t.ltB runStart = true
        · left
          unfold persistSegment
          rw [hrec, hstart]
          simp [hlt]
        · rcases dbKeys_persistSegment cfg run t e mt f.path f.size db with h | h
          · left; exact h
          · right
            exact ⟨(segmentUuid cfg.channelId t, t), by simp [hlt], h⟩
      | none => left; rfl
    · left; simp [hg]

theorem processFile_keys_mono (cfg : RecorderCfg) (run : RunState) (mt : MediaType)
    (db : SegmentDB) (f : FileEntry) (k : List Nat × DateTime) (hk : k ∈ dbKeys db) :
    k ∈ dbKeys (processFile cfg run mt db f) := by
  rcases processFile_keys_cases cfg run mt db f with h | ⟨k', _, h⟩
  · exact h ▸ hk
  · rw [h]; exact List.mem_append_left _ hk

theorem processFile_self_key (cfg : RecorderCfg) (run : RunState) (mt : MediaType)
    (db : SegmentDB) (f : FileEntry) (k : List Nat × DateTime)
    (hk : effKey cfg run f = some k) :
    k ∈ dbKeys (processFile cfg run mt db f) := by
  unfold effKey at hk
  match hrec : run.recordingId, hstart : run.runStartedAt with
  | none, _ => rw [hrec] at hk; cases hk
  | some recId, none => rw [hrec, hstart] at hk; cases hk
  | some recId, some runStart =>
    rw [hrec, hstart] at hk
    by_cases hg : gatePasses cfg f = true
    · simp only [hg, if_pos, if_true] at hk
      match hp : parseStartOnly cfg.segmentSeconds f.name with
      | some (t, e) =>
        rw [hp] at hk
        by_cases hlt : t.ltB runStart = true
        · simp [hlt] at hk
        · simp only [hlt, if_neg, Bool.false_eq_true, not_false_iff, if_false,
            Option.some.injEq] at hk
          subst hk
          unfold processFile
          rw [hg, if_pos rfl, hp]
          unfold persistSegment
          rw [hrec, hstart]
          simp only [hlt, Bool.false_eq_true, if_false]
          match hfind : findSegment db (segmentUuid cfg.channelId t) t with
          | none => simp [dbKeys, segKey]
          | some r0 =>
            have hmem : ∃ r ∈ db, r.id = segmentUuid cfg.channelId t ∧ r.startedAt = t := by
              have := List.find?_some hfind
              have hm := List.mem_of_find?_eq_some hfind
              exact ⟨r0, hm, by simpa using this⟩
            rcases hmem with ⟨r, hr, hid, hst⟩
            rw [mem_dbKeys]
            refine ⟨persistUpdate mt f.path f.size e r, ?_, ?_⟩
            · exact List.mem_map.mpr ⟨r, hr, by simp [hid, hst]⟩
            · rw [segKey_persistUpdate]
              unfold segKey
              rw [hid, hst]
      | none => rw [hp] at hk; cases hk
    · simp [hg] at hk

theorem processFile_keys_stable (cfg : RecorderCfg) (run : RunState) (mt : MediaType)
    (db : SegmentDB) (f : FileEntry) (k : List Nat × DateTime)
    (hk : effKey cfg run f = some k) (hmem : k ∈ dbKeys db) :
    dbKeys (processFile cfg run mt db f) = dbKeys db := by
  unfold effKey at hk
  match hrec : run.recordingId, hstart : run.runStartedAt with
  | none, _ => rw [hrec] at hk; cases hk
  | some recId, none => rw [hrec, hstart] at hk; cases hk
  | some recId, some runStart =>
    rw [hrec, hstart] at hk
    by_cases hg : gatePasses cfg f = true
    · simp only [hg, if_pos, if_true] at hk
      match hp : parseStartOnly cfg.segmentSeconds f.name with
      | some (t, e) =>
        rw [hp] at hk
        by_cases hlt : t.ltB runStart = true
        · simp [hlt] at hk
        · simp only [hlt, Bool.false_eq_true, if_false, Option.some.injEq] at hk
          subst hk
          unfold processFile
          rw [hg, if_pos rfl, hp]
          unfold persistSegment
          rw [hrec, hstart]
          simp only [hlt, Bool.false_eq_true, if_false]
          match hfind : findSegment db (segmentUuid cfg.channelId t) t with
          | none =>
            exfalso
            rcases (mem_dbKeys db _).mp hmem with ⟨r, hr, hkey⟩
            have hnone := (findSegment_eq_none_iff db (segmentUuid cfg.channelId t) t).mp hfind r hr
            unfold segKey at hkey
            exact hnone ⟨congrArg Prod.fst hkey, congrArg Prod.snd hkey⟩
          | some r0 =>
            simpa using dbKeys_update_map db (segmentUuid cfg.channelId t) t mt f.path f.size e
      | none => rw [hp] at hk; cases hk
    · simp [hg] at hk

theorem detectorPass_keys_mono (cfg : RecorderCfg) (run : RunState)
    (jobs : List (MediaType × FileEntry)) (db : SegmentDB) (k : List Nat × DateTime)
    (hk : k ∈ dbKeys db) : k ∈ dbKeys (detectorPass cfg run jobs db) := by
  induction jobs generalizing db with
  | nil => exact hk
  | cons j rest ih =>
    exact ih _ (processFile_keys_mono cfg run j.1 db j.2 k hk)

theorem detectorPass_self_keys (cfg : RecorderCfg) (run : RunState)
    (jobs : List (MediaType × FileEntry)) (db : SegmentDB)
    (j : MediaType × FileEntry) (hj : j ∈ jobs) (k : List Nat × DateTime)
    (hk : effKey cfg run j.2 = some k) : k ∈ dbKeys (detectorPass cfg run jobs db) := by
  induction jobs generalizing db with
  | nil => cases hj
  | cons j0 rest ih =>
    rcases List.mem_cons.mp hj with h | h
    · subst h
      exact detectorPass_keys_mono cfg run rest _ k
        (processFile_self_key cfg run j.1 db j.2 k hk)
    · exact ih _ h

theorem detectorPass_keys_stable (cfg : RecorderCfg) (run : RunState)
    (jobs : List (MediaType × FileEntry)) (db : SegmentDB)
    (hall : ∀ j ∈ jobs, ∀ k, effKey cfg run j.2 = some k → k ∈ dbKeys db) :
    dbKeys (detectorPass cfg run jobs db) = dbKeys db := by
  induction jobs generalizing db with
  | nil => rfl
  | cons j0 rest ih =>
    have hstep : dbKeys (processFile cfg run j0.1 db j0.2) = dbKeys db := by
      match hk : effKey cfg run j0.2 with
      | none =>
        rcases processFile_keys_cases cfg run j0.1 db j0.2 with h | ⟨k', hk', _⟩
        · exact h
        · rw [hk] at hk'; cases hk'
      | some k =>
        exact processFile_keys_stable cfg run j0.1 db j0.2 k hk
          (hall j0 (List.mem_cons_self j0 rest) k hk)
    have := ih (processFile cfg run j0.1 db j0.2)
      (fun j hj k hk => hstep ▸ hall j (List.mem_cons_of_mem j0 hj) k hk)
    calc dbKeys (detectorPass cfg run rest (processFile cfg run j0.1 db j0.2))
        = dbKeys (processFile cfg run j0.1 db j0.2) := this
      _ = dbKeys db := hstep

/-- C1: the segment id is the namespaced UUIDv5 hash of
`channel_id ":" started_at.isoformat()` — a pure function of the channel id
and start time — and re-running the detector over the same files inserts no
new segment rows: the second pass leaves the stored key set (and row count)
unchanged, updating existing rows in place. -/
theorem segment_id_deterministic_and_rescan_inserts_no_rows
    (cfg : RecorderCfg) (run : RunState) (jobs : List (MediaType × FileEntry))
    (db : SegmentDB) :
    (∀ c t, segmentUuid c t = uuid5 namespaceDNS (c ++ ":" ++ t.isoformat)) ∧
      dbKeys (detectorPass cfg run jobs (detectorPass cfg run jobs db))
        = dbKeys (detectorPass cfg run jobs db) ∧
      (detectorPass cfg run jobs (detectorPass cfg run jobs db)).length
        = (detectorPass cfg run jobs db).length := by
  have hkeys : dbKeys (detectorPass cfg run jobs (detectorPass cfg run jobs db))
      = dbKeys (detectorPass cfg run jobs db) :=
    detectorPass_keys_stable cfg run jobs _
      (fun j hj k hk => detectorPass_self_keys cfg run jobs db j hj k hk)
  refine ⟨fun c t => rfl, hkeys, ?_⟩
  have := congrArg List.length hkeys
  simpa [dbKeys] using this

/-! Stop-time cleanup (`DualHLSRecorder._cleanup_partials`). -/

/-- Minimum acceptable probed duration, `max(10.0, segment_seconds * 0.92)`. -/
def minOkDuration (cfg : RecorderCfg) : ℚ :=
  max 10 ((cfg.segmentSeconds : ℚ) * (92 / 100))

/-- Keep-decision of the audio branch of `_cleanup_partials`: when the
probe fails, fall back to the 85% size estimate; otherwise require the
probed duration to reach `minOkDuration`. -/
def keepAudioPartial (cfg : RecorderCfg) (f : FileEntry) : Bool :=
  match f.duration with
  | none =>
    let expected := cfg.sampleRate * cfg.channels * 2 * cfg.segmentSeconds
    !decide (f.size * 100 < expected * 85)
  | some d => !decide (d < minOkDuration cfg)

/-- Keep-decision of the video branch of `_cleanup_partials`. -/
def keepVideoPartial (cfg : RecorderCfg) (f : FileEntry) : Bool :=
  match f.duration with
  | none => !decide (f.size < 500000)
  | some d => !decide (d < minOkDuration cfg)

/-- Audio files remaining on disk after `_cleanup_partials`. -/
def cleanupPartialsAudio (cfg : RecorderCfg) (files : List FileEntry) : List FileEntry :=
  files.filter (keepAudioPartial cfg)

/-- Video files remaining on disk after `_cleanup_partials`. -/
def cleanupPartialsVideo (cfg : RecorderCfg) (files : List FileEntry) : List FileEntry :=
  files.filter (keepVideoPartial cfg)

/-- C5: the full-segment gate admits a file exactly when it meets its size
threshold — `.wav` at `0.85 × sample_rate × channels × 2 × segment_seconds`
bytes, `.mp4`/`.mkv` at 500 KB, anything else at 100 KB — and a file the
gate rejects changes no database row and emits no segment record. -/
theorem full_segment_gate_size_thresholds
    (cfg : RecorderCfg) (run : RunState) (mt : MediaType) (db : SegmentDB)
    (path name : String) (size : Nat) (dur : Option ℚ) (sfx : String)
    (hwav : sfx ≠ ".wav") (hmp4 : sfx ≠ ".mp4") (hmkv : sfx ≠ ".mkv") :
    (gatePasses cfg ⟨path, name, size, ".wav", dur⟩ = true ↔
      ((85 : ℚ) / 100) * ((cfg.sampleRate * cfg.channels * 2 * cfg.segmentSeconds : Nat) : ℚ)
        ≤ (size : ℚ)) ∧
    (gatePasses cfg ⟨path, name, size, ".mp4", dur⟩ = true ↔ 500000 ≤ size) ∧
    (gatePasses cfg ⟨path, name, size, ".mkv", dur⟩ = true ↔ 500000 ≤ size) ∧
    (gatePasses cfg ⟨path, name, size, sfx, dur⟩ = true ↔ 100000 ≤ size) ∧
    (∀ f : FileEntry, gatePasses cfg f = false →
      processFile cfg run mt db f = db ∧ fileRecord cfg run mt f = none) := by
  have key : ∀ e s : Nat, (e * 85 ≤ s * 100) ↔ ((85 : ℚ) / 100 * (e : ℚ) ≤ (s : ℚ)) := by
    intro e s
    rw [div_mul_eq_mul_div, div_le_iff₀ (by norm_num : (0 : ℚ) < 100)]
    constructor
    · intro h
      have h' : ((e * 85 : Nat) : ℚ) ≤ ((s * 100 : Nat) : ℚ) := Nat.cast_le.mpr h
      push_cast at h'
      linarith
    · intro h
      have h' : ((e * 85 : Nat) : ℚ) ≤ ((s * 100 : Nat) : ℚ) := by push_cast; linarith
      exact_mod_cast h'
  refine ⟨?_, ?_, ?_, ?_, ?_⟩
  · simp only [gatePasses, beq_self_eq_true, if_true, Bool.not_eq_true',
      decide_eq_false_iff_not, not_lt]
    exact key _ _
  · simp [gatePasses, not_lt, show ((".mp4" : String) == ".wav") = false by decide]
  · simp [gatePasses, not_lt, show ((".mkv" : String) == ".wav") = false by decide]
  · have h1 : (sfx == ".wav") = false := by
      simpa using hwav
    have h2 : (sfx == ".mp4") = false := by
      simpa using hmp4
    have h3 : (sfx == ".mkv") = false := by
      simpa using hmkv
    simp [gatePasses, h1, h2, h3, not_lt]
  · intro f hf
    constructor
    · unfold processFile
      rw [hf]
      rfl
    · unfold fileRecord
      rw [hf]
      rfl

/-- Witness for `full_segment_gate_size_thresholds` at the Kuwait-1 audio
parameters (16 kHz mono, 60 s segments) and the suffix `.flv`. -/
theorem full_segment_gate_size_thresholds_witness :
    (gatePasses ⟨"kuwait1", 16000, 1, 60⟩ ⟨"p", "n", 1632000, ".wav", none⟩ = true ↔
      ((85 : ℚ) / 100) * ((16000 * 1 * 2 * 60 : Nat) : ℚ) ≤ ((1632000 : Nat) : ℚ)) ∧
    (gatePasses ⟨"kuwait1", 16000, 1, 60⟩ ⟨"p", "n", 1632000, ".mp4", none⟩ = true ↔
      500000 ≤ 1632000) ∧
    (gatePasses ⟨"kuwait1", 16000, 1, 60⟩ ⟨"p", "n", 1632000, ".mkv", none⟩ = true ↔
      500000 ≤ 1632000) ∧
    (gatePasses ⟨"kuwait1", 16000, 1, 60⟩ ⟨"p", "n", 1632000, ".flv", none⟩ = true ↔
      100000 ≤ 1632000) ∧
    (∀ f : FileEntry, gatePasses ⟨"kuwait1", 16000, 1, 60⟩ f = false →
      processFile ⟨"kuwait1", 16000, 1, 60⟩ ⟨none, none⟩ .audio [] f = [] ∧
      fileRecord ⟨"kuwait1", 16000, 1, 60⟩ ⟨none, none⟩ .audio f = none) :=
  full_segment_gate_size_thresholds ⟨"kuwait1", 16000, 1, 60⟩ ⟨none, none⟩ .audio []
    "p" "n" 1632000 none ".flv" (by decide) (by decide) (by decide)

/-- C10: a file that passes the gate and parses, but whose start time
predates the run's start, leaves the database unchanged while still being
returned in the detector's in-memory segment list. -/
theorem run_window_skips_db_but_returns_record
    (cfg : RecorderCfg) (mt : MediaType) (db : SegmentDB) (f : FileEntry)
    (recId : String) (t0 t : DateTime) (e : Nat)
    (hgate : gatePasses cfg f = true)
    (hparse : parseStartOnly cfg.segmentSeconds f.name = some (t, e))
    (hlt : t.ltB t0 = true) :
    processFile cfg ⟨some recId, some t0⟩ mt db f = db ∧
    (collectSegments cfg ⟨some recId, some t0⟩ mt [f] db).2
      = [⟨f.path, cfg.channelId, some recId, mt, t, e⟩] ∧
    (collectSegments cfg ⟨some recId, some t0⟩ mt [f] db).1 = db := by
  have hpf : processFile cfg ⟨some recId, some t0⟩ mt db f = db := by
    unfold processFile
    rw [hgate, if_pos rfl, hparse]
    unfold persistSegment
    simp [hlt]
  refine ⟨hpf, ?_, ?_⟩
  · unfold collectSegments fileRecord
    rw [List.foldl_cons, List.foldl_nil]
    simp [hgate, hparse]
  · unfold collectSegments
    rw [List.foldl_cons, List.foldl_nil]
    simpa using hpf

/-- Witness for `run_window_skips_db_but_returns_record`: a full-size
audio segment from 2025-01-01 collected during a run that started on
2025-06-01. -/
theorem run_window_skips_db_but_returns_record_witness :
    processFile ⟨"kuwait1", 16000, 1, 60⟩ ⟨some "rec-1", some ⟨2025, 6, 1, 0, 0, 0⟩⟩ .audio []
      ⟨"/d/a/kuwait1-20250101-120000.wav", "kuwait1-20250101-120000.wav", 1920000, ".wav", none⟩
      = [] ∧
    (collectSegments ⟨"kuwait1", 16000, 1, 60⟩ ⟨some "rec-1", some ⟨2025, 6, 1, 0, 0, 0⟩⟩ .audio
      [⟨"/d/a/kuwait1-20250101-120000.wav", "kuwait1-20250101-120000.wav", 1920000, ".wav", none⟩]
      []).2
      = [⟨"/d/a/kuwait1-20250101-120000.wav", "kuwait1", some "rec-1", .audio,
          ⟨2025, 1, 1, 12, 0, 0⟩, 63871329660⟩] ∧
    (collectSegments ⟨"kuwait1", 16000, 1, 60⟩ ⟨some "rec-1", some ⟨2025, 6, 1, 0, 0, 0⟩⟩ .audio
      [⟨"/d/a/kuwait1-20250101-120000.wav", "kuwait1-20250101-120000.wav", 1920000, ".wav", none⟩]
      []).1 = [] :=
  run_window_skips_db_but_returns_record ⟨"kuwait1", 16000, 1, 60⟩ .audio []
    ⟨"/d/a/kuwait1-20250101-120000.wav", "kuwait1-20250101-120000.wav", 1920000, ".wav", none⟩
    "rec-1" ⟨2025, 6, 1, 0, 0, 0⟩ ⟨2025, 1, 1, 12, 0, 0⟩ 63871329660
    (by decide) (by decide) (by decide)

/-- C6 counterexample: a 600 KB `.mp4` whose probed duration is 30 s —
below 92% of the configured 60 s — is nevertheless persisted as a segment
row by the detector, because `_collect_segments` gates on size alone. -/
theorem short_video_persisted_despite_duration :
    ((30 : ℚ) < (92 / 100) * 60) ∧
    (processFile ⟨"kuwait1", 16000, 1, 60⟩ ⟨some "rec-1", some ⟨2025, 1, 1, 0, 0, 0⟩⟩ .video []
      ⟨"/d/v/kuwait1-20250101-120000.mp4", "kuwait1-20250101-120000.mp4", 600000, ".mp4",
        some 30⟩).length = 1 := by
  refine ⟨by norm_num, by decide⟩

/-- C6 amended: the detector never consults media duration — files
differing only in probed duration are persisted and reported identically —
so a below-92% file passing the size gate is persisted; duration is
enforced only by the stop-time partials cleanup, after which every
surviving file whose probe succeeded has duration at least
`max(10, 0.92 × segment_seconds)`. -/
theorem duration_enforced_only_by_cleanup :
    (∀ (cfg : RecorderCfg) (run : RunState) (mt : MediaType) (db : SegmentDB)
      (path name : String) (size : Nat) (sfx : String) (d1 d2 : Option ℚ),
      processFile cfg run mt db ⟨path, name, size, sfx, d1⟩
        = processFile cfg run mt db ⟨path, name, size, sfx, d2⟩ ∧
      fileRecord cfg run mt ⟨path, name, size, sfx, d1⟩
        = fileRecord cfg run mt ⟨path, name, size, sfx, d2⟩) ∧
    (∀ (cfg : RecorderCfg) (files : List FileEntry) (f : FileEntry) (d : ℚ),
      f ∈ cleanupPartialsVideo cfg files → f.duration = some d →
        minOkDuration cfg ≤ d) ∧
    (∀ (cfg : RecorderCfg) (files : List FileEntry) (f : FileEntry) (d : ℚ),
      f ∈ cleanupPartialsAudio cfg files → f.duration = some d →
        minOkDuration cfg ≤ d) := by
  refine ⟨?_, ?_, ?_⟩
  · intro cfg run mt db path name size sfx d1 d2
    exact ⟨rfl, rfl⟩
  · intro cfg files f d hf hd
    have hk := List.of_mem_filter hf
    unfold keepVideoPartial at hk
    rw [hd] at hk
    simpa [not_lt] using hk
  · intro cfg files f d hf hd
    have hk := List.of_mem_filter hf
    unfold keepAudioPartial at hk
    rw [hd] at hk
    simpa [not_lt] using hk

/-- Witness for `duration_enforced_only_by_cleanup`: a 56 s video file
survives the cleanup of a 60 s-segment run, and duration never affects
persistence. -/
theorem duration_enforced_only_by_cleanup_witness :
    minOkDuration ⟨"kuwait1", 16000, 1, 60⟩ ≤ 56 ∧
    processFile ⟨"kuwait1", 16000, 1, 60⟩ ⟨none, none⟩ .video []
      ⟨"p", "n", 600000, ".mp4", some 30⟩
      = processFile ⟨"kuwait1", 16000, 1, 60⟩ ⟨none, none⟩ .video []
        ⟨"p", "n", 600000, ".mp4", none⟩ := by
  have hkeep : keepVideoPartial ⟨"kuwait1", 16000, 1, 60⟩ ⟨"p", "n", 600000, ".mp4", some 56⟩
      = true := by
    simp only [keepVideoPartial, Bool.not_eq_true', decide_eq_false_iff_not, not_lt,
      minOkDuration]
    rw [max_le_iff]
    constructor <;> norm_num
  have hmem : (⟨"p", "n", 600000, ".mp4", some 56⟩ : FileEntry)
      ∈ cleanupPartialsVideo ⟨"kuwait1", 16000, 1, 60⟩ [⟨"p", "n", 600000, ".mp4", some 56⟩] := by
    simp [cleanupPartialsVideo, List.mem_filter, hkeep]
  exact ⟨duration_enforced_only_by_cleanup.2.1 ⟨"kuwait1", 16000, 1, 60⟩
      [⟨"p", "n", 600000, ".mp4", some 56⟩] ⟨"p", "n", 600000, ".mp4", some 56⟩ 56 hmem rfl,
    (duration_enforced_only_by_cleanup.1 ⟨"kuwait1", 16000, 1, 60⟩ ⟨none, none⟩ .video []
      "p" "n" 600000 ".mp4" (some 30) none).1⟩

/-! Repository helpers (`mobasher/storage/repositories.py`). -/

/-- Python truthiness of an optional integer: `None` and `0` are falsy. -/
def pyTruthyNat : Option Nat → Bool
  | none => false
  | some n => n != 0

theorem pyTruthyStr_of_ne {p : String} (hp : p ≠ "") : pyTruthyStr (some p) = true := by
  have hie : p.isEmpty = false := by
    rw [Bool.eq_false_iff]
    intro h
    exact hp ((String.isEmpty_iff p).mp h)
  simp [pyTruthyStr, hie]

/-- The update branch of `repositories.upsert_segment` on an existing row:
media paths are filled only when the stored value is falsy, the file size
only when the stored one is falsy or smaller, and `ended_at` / `status`
are overwritten unconditionally. -/
def mergeSegmentRow (audioPath videoPath : Option String) (fileSizeBytes : Option Nat)
    (endedAt : Nat) (status : String) (seg : SegmentRow) : SegmentRow :=
  let seg := if pyTruthyStr audioPath = true ∧ pyTruthyStr seg.audioPath = false then
      { seg with audioPath := audioPath } else seg
  let seg := if pyTruthyStr videoPath = true ∧ pyTruthyStr seg.videoPath = false then
      { seg with videoPath := videoPath } else seg
  let seg := if pyTruthyNat fileSizeBytes = true ∧
      (seg.fileSizeBytes.getD 0 = 0 ∨ fileSizeBytes.getD 0 > seg.fileSizeBytes.getD 0) then
      { seg with fileSizeBytes := fileSizeBytes } else seg
  { seg with endedAt := endedAt, status := status }

/-- Translation of `repositories.upsert_segment`: read the row by the
composite key `(segment_id, started_at)`; insert a fresh row when absent,
otherwise merge; return the stored row. -/
def upsertSegment (db : SegmentDB) (segmentId : List Nat) (recordingId : String)
    (channelId : String) (startedAt : DateTime) (endedAt : Nat)
    (audioPath videoPath : Option String) (fileSizeBytes : Option Nat)
    (status : String) : SegmentDB × SegmentRow :=
  match findSegment db segmentId startedAt with
  | none =>
    let seg : SegmentRow :=
      { id := segmentId, recordingId := some recordingId, channelId := channelId,
        startedAt := startedAt, endedAt := endedAt, audioPath := audioPath,
        videoPath := videoPath, fileSizeBytes := fileSizeBytes, status := status }
    (db ++ [seg], seg)
  | some seg0 =>
    (db.map (fun r => if r.id = segmentId ∧ r.startedAt = startedAt then
        mergeSegmentRow audioPath videoPath fileSizeBytes endedAt status r else r),
      mergeSegmentRow audioPath videoPath fileSizeBytes endedAt status seg0)

/-- C2: upserting an existing `(id, started_at)` again preserves a
non-null, non-empty stored media path; writes a supplied path only into a
null field; sets the size to the maximum of the stored and supplied sizes;
and unconditionally overwrites `ended_at` and `status` — and the merged
row replaces the old one in the store. -/
theorem upsert_segment_merge_semantics
    (db : SegmentDB) (segmentId : List Nat) (recordingId channelId : String)
    (startedAt : DateTime) (endedAt : Nat) (audioPath videoPath : Option String)
    (fileSizeBytes : Option Nat) (status : String) (seg0 : SegmentRow)
    (hfind : findSegment db segmentId startedAt = some seg0) :
    (∀ p, p ≠ "" → seg0.audioPath = some p →
      (upsertSegment db segmentId recordingId channelId startedAt endedAt
        audioPath videoPath fileSizeBytes status).2.audioPath = some p) ∧
    (∀ p, p ≠ "" → seg0.videoPath = some p →
      (upsertSegment db segmentId recordingId channelId startedAt endedAt
        audioPath videoPath fileSizeBytes status).2.videoPath = some p) ∧
    (∀ q, q ≠ "" → seg0.audioPath = none → audioPath = some q →
      (upsertSegment db segmentId recordingId channelId startedAt endedAt
        audioPath videoPath fileSizeBytes status).2.audioPath = some q) ∧
    (∀ q, q ≠ "" → seg0.videoPath = none → videoPath = some q →
      (upsertSegment db segmentId recordingId channelId startedAt endedAt
        audioPath videoPath fileSizeBytes status).2.videoPath = some q) ∧
    (∀ s, 0 < s → fileSizeBytes = some s →
      (upsertSegment db segmentId recordingId channelId startedAt endedAt
        audioPath videoPath fileSizeBytes status).2.fileSizeBytes
        = some (max (seg0.fileSizeBytes.getD 0) s)) ∧
    (upsertSegment db segmentId recordingId channelId startedAt endedAt
      audioPath videoPath fileSizeBytes status).2.endedAt = endedAt ∧
    (upsertSegment db segmentId recordingId channelId startedAt endedAt
      audioPath videoPath fileSizeBytes status).2.status = status := by
  have hres : upsertSegment db segmentId recordingId channelId startedAt endedAt
      audioPath videoPath fileSizeBytes status
      = (db.map (fun r => if r.id = segmentId ∧ r.startedAt = startedAt then
          mergeSegmentRow audioPath videoPath fileSizeBytes endedAt status r else r),
        mergeSegmentRow audioPath videoPath fileSizeBytes endedAt status seg0) := by
    unfold upsertSegment
    rw [hfind]
  rw [hres]
  refine ⟨?_, ?_, ?_, ?_, ?_, ?_, ?_⟩
  · intro p hp hseg
    have htr : pyTruthyStr seg0.audioPath = true := hseg ▸ pyTruthyStr_of_ne hp
    simp only [mergeSegmentRow]
    split_ifs <;> simp_all [hseg]
  · intro p hp hseg
    have htr : pyTruthyStr seg0.videoPath = true := hseg ▸ pyTruthyStr_of_ne hp
    simp only [mergeSegmentRow]
    split_ifs <;> simp_all [hseg]
  · intro q hq hseg harg
    have hfalse : pyTruthyStr seg0.audioPath = false := by simp [pyTruthyStr, hseg]
    have htr : pyTruthyStr audioPath = true := harg ▸ pyTruthyStr_of_ne hq
    simp only [mergeSegmentRow]
    split_ifs <;> simp_all [harg]
  · intro q hq hseg harg
    have hfalse : pyTruthyStr seg0.videoPath = false := by simp [pyTruthyStr, hseg]
    have htr : pyTruthyStr videoPath = true := harg ▸ pyTruthyStr_of_ne hq
    simp only [mergeSegmentRow]
    split_ifs <;> simp_all [harg]
  · intro s hs harg
    subst harg
    have hproj : (mergeSegmentRow audioPath videoPath (some s) endedAt status seg0).fileSizeBytes
        = if seg0.fileSizeBytes.getD 0 = 0 ∨ s > seg0.fileSizeBytes.getD 0 then some s
          else seg0.fileSizeBytes := by
      have htr : pyTruthyNat (some s) = true := by
        simp [pyTruthyNat]
        omega
      simp only [mergeSegmentRow]
      split_ifs <;> simp_all
    rw [hproj]
    by_cases hz : seg0.fileSizeBytes.getD 0 = 0
    · rw [if_pos (Or.inl hz), hz]
      simp
    · by_cases hgt : s > seg0.fileSizeBytes.getD 0
      · rw [if_pos (Or.inr hgt)]
        rw [Nat.max_eq_right (le_of_lt hgt)]
      · rw [if_neg (by push_neg; exact ⟨hz, by omega⟩)]
        cases hfs : seg0.fileSizeBytes with
        | none => rw [hfs] at hz; simp at hz
        | some e =>
          simp only [hfs, Option.getD_some] at hgt ⊢
          rw [Nat.max_eq_left (by omega)]
  · simp [mergeSegmentRow]
  · simp [mergeSegmentRow]

/-- Witness for `upsert_segment_merge_semantics`: a stored audio-only row
of 100 bytes merged with a video path and a 200-byte size. -/
theorem upsert_segment_merge_semantics_witness :
    ((upsertSegment
        [⟨[1], some "r0", "kuwait1", ⟨2025, 1, 1, 12, 0, 0⟩, 600, some "a.wav", none,
          some 100, "completed"⟩]
        [1] "r1" "kuwait1" ⟨2025, 1, 1, 12, 0, 0⟩ 660 (some "a2.wav") (some "v.mp4")
        (some 200) "completed").2.audioPath = some "a.wav") ∧
    ((upsertSegment
        [⟨[1], some "r0", "kuwait1", ⟨2025, 1, 1, 12, 0, 0⟩, 600, some "a.wav", none,
          some 100, "completed"⟩]
        [1] "r1" "kuwait1" ⟨2025, 1, 1, 12, 0, 0⟩ 660 (some "a2.wav") (some "v.mp4")
        (some 200) "completed").2.videoPath = some "v.mp4") ∧
    ((upsertSegment
        [⟨[1], some "r0", "kuwait1", ⟨2025, 1, 1, 12, 0, 0⟩, 600, some "a.wav", none,
          some 100, "completed"⟩]
        [1] "r1" "kuwait1" ⟨2025, 1, 1, 12, 0, 0⟩ 660 (some "a2.wav") (some "v.mp4")
        (some 200) "completed").2.fileSizeBytes = some (max 100 200)) ∧
    ((upsertSegment
        [⟨[1], some "r0", "kuwait1", ⟨2025, 1, 1, 12, 0, 0⟩, 600, some "a.wav", none,
          some 100, "completed"⟩]
        [1] "r1" "kuwait1" ⟨2025, 1, 1, 12, 0, 0⟩ 660 (some "a2.wav") (some "v.mp4")
        (some 200) "completed").2.endedAt = 660) := by
  have h := upsert_segment_merge_semantics
    [⟨[1], some "r0", "kuwait1", ⟨2025, 1, 1, 12, 0, 0⟩, 600, some "a.wav", none,
      some 100, "completed"⟩]
    [1] "r1" "kuwait1" ⟨2025, 1, 1, 12, 0, 0⟩ 660 (some "a2.wav") (some "v.mp4")
    (some 200) "completed"
    ⟨[1], some "r0", "kuwait1", ⟨2025, 1, 1, 12, 0, 0⟩, 600, some "a.wav", none,
      some 100, "completed"⟩
    (by decide)
  exact ⟨h.1 "a.wav" (by decide) rfl,
    h.2.2.2.1 "v.mp4" (by decide) rfl rfl,
    h.2.2.2.2.1 200 (by decide) rfl,
    h.2.2.2.2.2.1⟩

/-! Conflict behaviour of the upserts. Committing an INSERT raises a
unique-constraint error when another writer created the same composite key
between the read and the commit. `concurrent` carries the row such a
writer inserted (`none` when no writer intervened). -/

/-- Database-level failure surfaced by a commit. -/
inductive DBError
  | uniqueViolation
deriving DecidableEq, Repr

/-- A `transcripts` row (the columns written by `upsert_transcript`). -/
structure TranscriptRow where
  segmentId : List Nat
  segmentStartedAt : DateTime
  language : String
  text : String
  words : Option (List String)
  confidence : Option Int
  modelName : String
  modelVersion : Option String
  processingTimeMs : Option Nat
  engineTimeMs : Option Nat
deriving DecidableEq, Repr

/-- The `transcripts` table, keyed by `(segment_id, segment_started_at)`. -/
abbrev TranscriptDB := List TranscriptRow

/-- Primary-key lookup, `db.get(Transcript, (segment_id, segment_started_at))`. -/
def findTranscript (db : TranscriptDB) (segId : List Nat) (t : DateTime) :
    Option TranscriptRow :=
  db.find? (fun r => decide (r.segmentId = segId ∧ r.segmentStartedAt = t))

/-- Translation of `repositories.upsert_transcript` exposed to a possible
concurrent insert of the same key: read by key; when absent, insert — the
commit raises on a concurrent duplicate and the function has no handler,
so the error propagates to the caller; when present, overwrite all fields. -/
def upsertTranscriptConc (concurrent : Option TranscriptRow) (db : TranscriptDB)
    (segId : List Nat) (t : DateTime) (text language : String) (confidence : Option Int)
    (modelName : String) (modelVersion : Option String) (words : Option (List String))
    (processingTimeMs engineTimeMs : Option Nat) :
    Except DBError (TranscriptDB × TranscriptRow) :=
  match findTranscript db segId t with
  | none =>
    match concurrent with
    | some _ => .error .uniqueViolation
    | none =>
      let tr : TranscriptRow :=
        ⟨segId, t, language, text, words, confidence, modelName, modelVersion,
          processingTimeMs, engineTimeMs⟩
      .ok (db ++ [tr], tr)
  | some tr0 =>
    let tr1 : TranscriptRow :=
      ⟨tr0.segmentId, tr0.segmentStartedAt, language, text, words, confidence,
        modelName, modelVersion, processingTimeMs, engineTimeMs⟩
    .ok (db.map (fun r => if r.segmentId = segId ∧ r.segmentStartedAt = t then tr1 else r),
      tr1)

/-- Translation of `repositories.upsert_segment` exposed to a possible
concurrent insert of the same key; as with `upsert_transcript`, the
source has no conflict handler on the insert path. -/
def upsertSegmentConc (concurrent : Option SegmentRow) (db : SegmentDB)
    (segmentId : List Nat) (recordingId : String) (channelId : String)
    (startedAt : DateTime) (endedAt : Nat) (audioPath videoPath : Option String)
    (fileSizeBytes : Option Nat) (status : String) :
    Except DBError (SegmentDB × SegmentRow) :=
  match findSegment db segmentId startedAt with
  | none =>
    match concurrent with
    | some _ => .error .uniqueViolation
    | none =>
      let seg : SegmentRow :=
        { id := segmentId, recordingId := some recordingId, channelId := channelId,
          startedAt := startedAt, endedAt := endedAt, audioPath := audioPath,
          videoPath := videoPath, fileSizeBytes := fileSizeBytes, status := status }
      .ok (db ++ [seg], seg)
  | some seg0 =>
    .ok (db.map (fun r => if r.id = segmentId ∧ r.startedAt = startedAt then
        mergeSegmentRow audioPath videoPath fileSizeBytes endedAt status r else r),
      mergeSegmentRow audioPath videoPath fileSizeBytes endedAt status seg0)

/-- The behaviour the spec §4.5 claims, written from its words for
comparison: a unique-constraint conflict means another writer got there
first, so retry exactly once with a read-modify-write — the re-read finds
the concurrently inserted row and updates it in place. -/
def upsertTranscriptSpecRetry (concurrent : Option TranscriptRow) (db : TranscriptDB)
    (segId : List Nat) (t : DateTime) (text language : String) (confidence : Option Int)
    (modelName : String) (modelVersion : Option String) (words : Option (List String))
    (processingTimeMs engineTimeMs : Option Nat) :
    Except DBError (TranscriptDB × TranscriptRow) :=
  match findTranscript db segId t with
  | none =>
    match concurrent with
    | some other =>
      let tr1 : TranscriptRow :=
        ⟨other.segmentId, other.segmentStartedAt, language, text, words, confidence,
          modelName, modelVersion, processingTimeMs, engineTimeMs⟩
      .ok ((db ++ [other]).map
        (fun r => if r.segmentId = segId ∧ r.segmentStartedAt = t then tr1 else r), tr1)
    | none =>
      let tr : TranscriptRow :=
        ⟨segId, t, language, text, words, confidence, modelName, modelVersion,
          processingTimeMs, engineTimeMs⟩
      .ok (db ++ [tr], tr)
  | some tr0 =>
    let tr1 : TranscriptRow :=
      ⟨tr0.segmentId, tr0.segmentStartedAt, language, text, words, confidence,
        modelName, modelVersion, processingTimeMs, engineTimeMs⟩
    .ok (db.map (fun r => if r.segmentId = segId ∧ r.segmentStartedAt = t then tr1 else r),
      tr1)

/-- C4 counterexample: on an empty table with a concurrent writer inserting
the same transcript key, `upsert_transcript` surfaces the unique-constraint
error immediately, whereas the behaviour claimed by the spec (one
read-modify-write retry) would succeed — the two differ at this input. -/
theorem upsert_conflict_not_retried :
    upsertTranscriptConc
        (some ⟨[1], ⟨2025, 1, 1, 12, 0, 0⟩, "ar", "other", none, none, "m0", none, none, none⟩)
        [] [1] ⟨2025, 1, 1, 12, 0, 0⟩ "hello" "ar" none "m1" none none none none
      = .error .uniqueViolation ∧
    upsertTranscriptSpecRetry
        (some ⟨[1], ⟨2025, 1, 1, 12, 0, 0⟩, "ar", "other", none, none, "m0", none, none, none⟩)
        [] [1] ⟨2025, 1, 1, 12, 0, 0⟩ "hello" "ar" none "m1" none none none none
      = .ok ([⟨[1], ⟨2025, 1, 1, 12, 0, 0⟩, "ar", "hello", none, none, "m1", none, none, none⟩],
          ⟨[1], ⟨2025, 1, 1, 12, 0, 0⟩, "ar", "hello", none, none, "m1", none, none, none⟩) ∧
    upsertTranscriptConc
        (some ⟨[1], ⟨2025, 1, 1, 12, 0, 0⟩, "ar", "other", none, none, "m0", none, none, none⟩)
        [] [1] ⟨2025, 1, 1, 12, 0, 0⟩ "hello" "ar" none "m1" none none none none
      ≠ upsertTranscriptSpecRetry
        (some ⟨[1], ⟨2025, 1, 1, 12, 0, 0⟩, "ar", "other", none, none, "m0", none, none, none⟩)
        [] [1] ⟨2025, 1, 1, 12, 0, 0⟩ "hello" "ar" none "m1" none none none none := by
  exact ⟨rfl, rfl, fun h => Except.noConfusion h⟩

/-- C4 amended: the upserts avoid most conflicts by reading before
writing, but contain no conflict handler — whenever the row is absent and
a concurrent writer inserts the same key before the commit, both
`upsert_transcript` and `upsert_segment` surface the unique-constraint
error directly to the caller, with no retry. -/
theorem upsert_conflict_surfaces_directly
    (db : TranscriptDB) (sdb : SegmentDB) (segId : List Nat) (t : DateTime)
    (other : TranscriptRow) (sother : SegmentRow)
    (text language : String) (confidence : Option Int) (modelName : String)
    (modelVersion : Option String) (words : Option (List String))
    (processingTimeMs engineTimeMs : Option Nat)
    (recordingId channelId : String) (endedAt : Nat)
    (audioPath videoPath : Option String) (fileSizeBytes : Option Nat) (status : String)
    (htr : findTranscript db segId t = none)
    (hseg : findSegment sdb segId t = none) :
    upsertTranscriptConc (some other) db segId t text language confidence modelName
        modelVersion words processingTimeMs engineTimeMs = .error .uniqueViolation ∧
    upsertSegmentConc (some sother) sdb segId recordingId channelId t endedAt
        audioPath videoPath fileSizeBytes status = .error .uniqueViolation := by
  constructor
  · unfold upsertTranscriptConc
    rw [htr]
  · unfold upsertSegmentConc
    rw [hseg]

/-- Witness for `upsert_conflict_surfaces_directly` on empty tables. -/
theorem upsert_conflict_surfaces_directly_witness :
    upsertTranscriptConc
        (some ⟨[2], ⟨2025, 1, 1, 12, 0, 0⟩, "ar", "w", none, none, "m0", none, none, none⟩)
        [] [2] ⟨2025, 1, 1, 12, 0, 0⟩ "x" "ar" none "m1" none none none none
      = .error .uniqueViolation ∧
    upsertSegmentConc
        (some ⟨[2], some "r0", "ch", ⟨2025, 1, 1, 12, 0, 0⟩, 60, none, none, none, "completed"⟩)
        [] [2] "r1" "ch" ⟨2025, 1, 1, 12, 0, 0⟩ 60 none none none "completed"
      = .error .uniqueViolation :=
  upsert_conflict_surfaces_directly [] [] [2] ⟨2025, 1, 1, 12, 0, 0⟩
    ⟨[2], ⟨2025, 1, 1, 12, 0, 0⟩, "ar", "w", none, none, "m0", none, none, none⟩
    ⟨[2], some "r0", "ch", ⟨2025, 1, 1, 12, 0, 0⟩, 60, none, none, none, "completed"⟩
    "x" "ar" none "m1" none none none none "r1" "ch" 60 none none none "completed"
    (by decide) (by decide)

/-! ASR enqueue with Redis dedupe (`mobasher/asr/enqueue.py`). -/

/-- Redis key store: `(key, expiry)` pairs, times in seconds. A key is
visible while `now < expiry`; an expired key counts as absent. -/
abbrev Redis := List (String × Int)

/-- Whether a key is live (present and unexpired) at time `now`. -/
def keyLive (r : Redis) (now : Int) (key : String) : Bool :=
  r.any (fun kv => kv.1 == key && decide (now < kv.2))

/-- Redis `SET key "1" NX EX ttl` issued at time `now`: fails when a live
entry exists; otherwise stores the key with expiry `now + ttl`. -/
def setNX (r : Redis) (now ttl : Int) (key : String) : Redis × Bool :=
  if keyLive r now key then (r, false)
  else ((key, now + ttl) :: r.filter (fun kv => kv.1 != key), true)

/-- The segment columns `enqueue_missing` consults (`str(seg.id)` and
`seg.started_at.isoformat()` are its key material). -/
structure AsrSegment where
  id : String
  startedAtIso : String
  audioPath : Option String
  status : String
  asrStatus : String
deriving DecidableEq, Repr

/-- Store visible to the ASR scheduler: segments plus the set of
transcript keys `(segment_id, segment_started_at_iso)`. -/
structure AsrDb where
  segments : List AsrSegment
  transcriptKeys : List (String × String)
deriving DecidableEq, Repr

/-- Insertion step of a straightforward stable sort. -/
def insertBy (le : α → α → Bool) (x : α) : List α → List α
  | [] => [x]
  | y :: ys => if le x y then x :: y :: ys else y :: insertBy le x ys

/-- Stable insertion sort by a Boolean `≤`. -/
def sortBy (le : α → α → Bool) : List α → List α
  | [] => []
  | x :: xs => insertBy le x (sortBy le xs)

/-- Translation of `repositories.list_segments_missing_transcripts` on the
modelled columns: completed segments with a non-null audio path and no
transcript row, newest first, limited. (ISO-8601 strings sort
lexicographically in time order.) -/
def listSegmentsMissingTranscripts (db : AsrDb) (limit : Nat) : List AsrSegment :=
  (sortBy (fun a b => decide (b.startedAtIso ≤ a.startedAtIso))
    (db.segments.filter (fun s =>
      s.audioPath.isSome && s.status == "completed"
        && !db.transcriptKeys.contains (s.id, s.startedAtIso)))).take limit

/-- The dedupe key `f"asr:queued:{seg.id}:{seg.started_at.isoformat()}"`
for a `(segment id, started-at iso)` pair. -/
def dedupeKey (p : String × String) : String :=
  "asr:queued:" ++ p.1 ++ ":" ++ p.2

/-- Running state of the `enqueue_missing` loop: the store, the broker
keys, the published task arguments, and the returned count. -/
structure EnqueueState where
  db : AsrDb
  redis : Redis
  published : List (String × String)
  count : Nat
deriving Repr

/-- One iteration of the `enqueue_missing` loop: `SET NX EX` the dedupe
key; on success mark the segment's `asr_status` queued and publish
`transcribe_segment.delay(str(seg.id), iso)`; otherwise skip. -/
def enqueueStep (now ttl : Int) (acc : EnqueueState) (seg : AsrSegment) : EnqueueState :=
  let (r', ok) := setNX acc.redis now ttl (dedupeKey (seg.id, seg.startedAtIso))
  if ok then
    { db := { acc.db with segments := acc.db.segments.map (fun s =>
        if s.id = seg.id ∧ s.startedAtIso = seg.startedAtIso then
          { s with asrStatus := "queued" } else s) },
      redis := r',
      published := acc.published ++ [(seg.id, seg.startedAtIso)],
      count := acc.count + 1 }
  else { acc with redis := r' }

/-- Translation of `enqueue_missing`: fold the loop over the candidate
segments. -/
def enqueueMissing (now ttl : Int) (db : AsrDb) (r : Redis) (limit : Nat) : EnqueueState :=
  (listSegmentsMissingTranscripts db limit).foldl (enqueueStep now ttl) ⟨db, r, [], 0⟩

theorem keyLive_mono (r : Redis) (t t' : Int) (k : String) (h : t' ≤ t)
    (hl : keyLive r t k = true) : keyLive r t' k = true := by
  unfold keyLive at hl ⊢
  simp only [List.any_eq_true, Bool.and_eq_true, decide_eq_true_eq] at hl ⊢
  rcases hl with ⟨kv, hkv, hk, he⟩
  exact ⟨kv, hkv, hk, by omega⟩

theorem keyLive_setNX_preserve (r : Redis) (now ttl t : Int) (k k' : String)
    (ht : now ≤ t) (h : keyLive r t k = true) :
    keyLive (setNX r now ttl k').1 t k = true := by
  unfold setNX
  by_cases hl : keyLive r now k' = true
  · simp [hl, h]
  · by_cases hk : k = k'
    · exact absurd (keyLive_mono r t now k ht h) (hk ▸ hl)
    · simp only [hl, Bool.false_eq_true, if_false]
      unfold keyLive at h ⊢
      simp only [List.any_eq_true, Bool.and_eq_true, beq_iff_eq, decide_eq_true_eq] at h ⊢
      rcases h with ⟨kv, hkv, hkeq, he⟩
      refine ⟨kv, List.mem_cons_of_mem _ (List.mem_filter.mpr ⟨hkv, ?_⟩), hkeq, he⟩
      simp [hkeq, hk]

theorem setNX_sets_key (r : Redis) (now ttl t : Int) (k : String)
    (hnot : keyLive r now k = false) (ht1 : t < now + ttl) :
    keyLive (setNX r now ttl k).1 t k = true := by
  unfold setNX
  rw [hnot]
  simp only [Bool.false_eq_true, if_false]
  unfold keyLive
  simp only [List.any_eq_true, Bool.and_eq_true, beq_iff_eq, decide_eq_true_eq]
  exact ⟨(k, now + ttl), List.mem_cons_self _ _, rfl, ht1⟩

theorem enqueueStep_of_live (now ttl : Int) (st : EnqueueState) (seg : AsrSegment)
    (hl : keyLive st.redis now (dedupeKey (seg.id, seg.startedAtIso)) = true) :
    enqueueStep now ttl st seg = { st with redis := st.redis } := by
  unfold enqueueStep setNX
  rw [hl]
  rfl

theorem enqueueStep_of_free (now ttl : Int) (st : EnqueueState) (seg : AsrSegment)
    (hl : keyLive st.redis now (dedupeKey (seg.id, seg.startedAtIso)) = false) :
    enqueueStep now ttl st seg =
      { db := { st.db with segments := st.db.segments.map (fun s =>
          if s.id = seg.id ∧ s.startedAtIso = seg.startedAtIso then
            { s with asrStatus := "queued" } else s) },
        redis := (setNX st.redis now ttl (dedupeKey (seg.id, seg.startedAtIso))).1,
        published := st.published ++ [(seg.id, seg.startedAtIso)],
        count := st.count + 1 } := by
  unfold enqueueStep
  unfold setNX
  rw [hl]
  rfl

/-- The four invariants the enqueue loop maintains, relative to the
broker state `r0` it started from, its call time `now`, and an
observation time `t1 < now + ttl`. -/
def EnqInv (r0 : Redis) (now t1 : Int) (st : EnqueueState) : Prop :=
  (∀ p ∈ st.published, keyLive r0 now (dedupeKey p) = false) ∧
  (∀ p ∈ st.published, keyLive st.redis t1 (dedupeKey p) = true) ∧
  (∀ s ∈ st.db.segments, (s.id, s.startedAtIso) ∈ st.published → s.asrStatus = "queued") ∧
  (∀ k, keyLive r0 now k = true → keyLive st.redis now k = true)

theorem enqueueStep_inv (r0 : Redis) (now t1 ttl : Int) (h01 : now ≤ t1)
    (h1 : t1 < now + ttl) (st : EnqueueState) (seg : AsrSegment)
    (hinv : EnqInv r0 now t1 st) : EnqInv r0 now t1 (enqueueStep now ttl st seg) := by
  obtain ⟨inv1, inv2, inv3, inv4⟩ := hinv
  by_cases hl : keyLive st.redis now (dedupeKey (seg.id, seg.startedAtIso)) = true
  · rw [enqueueStep_of_live now ttl st seg hl]
    exact ⟨inv1, inv2, inv3, inv4⟩
  · have hl' : keyLive st.redis now (dedupeKey (seg.id, seg.startedAtIso)) = false :=
      Bool.eq_false_iff.mpr hl
    rw [enqueueStep_of_free now ttl st seg hl']
    refine ⟨?_, ?_, ?_, ?_⟩
    · intro p hp
      rcases List.mem_append.mp hp with h | h
      · exact inv1 p h
      · have hpe : p = (seg.id, seg.startedAtIso) := List.mem_singleton.mp h
        subst hpe
        cases hr0 : keyLive r0 now (dedupeKey (seg.id, seg.startedAtIso)) with
        | false => rfl
        | true => exact absurd (inv4 _ hr0) hl
    · intro p hp
      rcases List.mem_append.mp hp with h | h
      · exact keyLive_setNX_preserve st.redis now ttl t1 (dedupeKey p) _ h01 (inv2 p h)
      · have hpe : p = (seg.id, seg.startedAtIso) := List.mem_singleton.mp h
        subst hpe
        exact setNX_sets_key st.redis now ttl t1 _ hl' h1
    · intro s' hs' hp
      rcases List.mem_map.mp hs' with ⟨s, hs, rfl⟩
      by_cases hc : s.id = seg.id ∧ s.startedAtIso = seg.startedAtIso
      · rw [if_pos hc]
      · rw [if_neg hc]
        rw [if_neg hc] at hp
        rcases List.mem_append.mp hp with h | h
        · exact inv3 s hs h
        · have hpe := List.mem_singleton.mp h
          exact absurd ⟨congrArg Prod.fst hpe, congrArg Prod.snd hpe⟩ hc
    · intro k hk
      exact keyLive_setNX_preserve st.redis now ttl now k
        (dedupeKey (seg.id, seg.startedAtIso)) le_rfl (inv4 k hk)

theorem enqueueFold_inv (r0 : Redis) (now t1 ttl : Int) (h01 : now ≤ t1)
    (h1 : t1 < now + ttl) (segs : List AsrSegment) (st : EnqueueState)
    (hinv : EnqInv r0 now t1 st) :
    EnqInv r0 now t1 (segs.foldl (enqueueStep now ttl) st) := by
  induction segs generalizing st with
  | nil => exact hinv
  | cons seg rest ih =>
    exact ih _ (enqueueStep_inv r0 now t1 ttl h01 h1 st seg hinv)

/-- C3: per `(stage, segment)` pair at most one enqueue is accepted within
the dedupe TTL. The scheduler publishes a task and marks the segment
`asr_status = "queued"` only when the `asr:queued:<id>:<iso>` key was
newly set; a segment whose key is already live is skipped (nothing is
published for it); every published key stays live until `now + ttl`; and a
re-run at any `t1` within the TTL publishes none of the already-published
segments again. -/
theorem asr_enqueue_dedupe_at_most_once
    (now t1 ttl : Int) (db : AsrDb) (r : Redis) (limit : Nat)
    (h01 : now ≤ t1) (h1 : t1 < now + ttl) :
    (∀ p ∈ (enqueueMissing now ttl db r limit).published,
      keyLive r now (dedupeKey p) = false) ∧
    (∀ p ∈ (enqueueMissing now ttl db r limit).published,
      keyLive (enqueueMissing now ttl db r limit).redis t1 (dedupeKey p) = true) ∧
    (∀ s ∈ (enqueueMissing now ttl db r limit).db.segments,
      (s.id, s.startedAtIso) ∈ (enqueueMissing now ttl db r limit).published →
        s.asrStatus = "queued") ∧
    (∀ p ∈ (enqueueMissing now ttl db r limit).published,
      p ∉ (enqueueMissing t1 ttl (enqueueMissing now ttl db r limit).db
            (enqueueMissing now ttl db r limit).redis limit).published) := by
  have hinv0 : EnqInv r now t1 (⟨db, r, [], 0⟩ : EnqueueState) :=
    ⟨fun p hp => absurd hp (List.not_mem_nil p),
      fun p hp => absurd hp (List.not_mem_nil p),
      fun s _ hp => absurd hp (List.not_mem_nil _),
      fun k hk => hk⟩
  have hrun1 : EnqInv r now t1 (enqueueMissing now ttl db r limit) := by
    unfold enqueueMissing
    exact enqueueFold_inv r now t1 ttl h01 h1 (listSegmentsMissingTranscripts db limit) _ hinv0
  obtain ⟨inv1, inv2, inv3, inv4⟩ := hrun1
  refine ⟨inv1, inv2, inv3, ?_⟩
  intro p hp hp2
  have httl : (0 : Int) < ttl := by omega
  have hinv0' : EnqInv (enqueueMissing now ttl db r limit).redis t1 t1
      (⟨(enqueueMissing now ttl db r limit).db,
        (enqueueMissing now ttl db r limit).redis, [], 0⟩ : EnqueueState) :=
    ⟨fun q hq => absurd hq (List.not_mem_nil q),
      fun q hq => absurd hq (List.not_mem_nil q),
      fun s _ hq => absurd hq (List.not_mem_nil _),
      fun k hk => hk⟩
  have hrun2 : EnqInv (enqueueMissing now ttl db r limit).redis t1 t1
      (enqueueMissing t1 ttl (enqueueMissing now ttl db r limit).db
        (enqueueMissing now ttl db r limit).redis limit) := by
    unfold enqueueMissing
    exact enqueueFold_inv _ t1 t1 ttl le_rfl (by omega)
      (listSegmentsMissingTranscripts (enqueueMissing now ttl db r limit).db limit) _ hinv0'
  have hdead := hrun2.1 p hp2
  have hlive := inv2 p hp
  rw [hlive] at hdead
  cases hdead

/-- Witness for `asr_enqueue_dedupe_at_most_once`: one completed audio
segment, an empty broker, a first run at `t = 0` and a second at `t = 1`
within a 3600 s TTL. -/
theorem asr_enqueue_dedupe_at_most_once_witness :
    (∀ p ∈ (enqueueMissing 0 3600
        ⟨[⟨"s1", "2025-01-01T12:00:00+00:00", some "a.wav", "completed", "pending"⟩], []⟩
        [] 200).published,
      keyLive [] 0 (dedupeKey p) = false) ∧
    (∀ p ∈ (enqueueMissing 0 3600
        ⟨[⟨"s1", "2025-01-01T12:00:00+00:00", some "a.wav", "completed", "pending"⟩], []⟩
        [] 200).published,
      keyLive (enqueueMissing 0 3600
        ⟨[⟨"s1", "2025-01-01T12:00:00+00:00", some "a.wav", "completed", "pending"⟩], []⟩
        [] 200).redis 1 (dedupeKey p) = true) ∧
    (∀ s ∈ (enqueueMissing 0 3600
        ⟨[⟨"s1", "2025-01-01T12:00:00+00:00", some "a.wav", "completed", "pending"⟩], []⟩
        [] 200).db.segments,
      (s.id, s.startedAtIso) ∈ (enqueueMissing 0 3600
        ⟨[⟨"s1", "2025-01-01T12:00:00+00:00", some "a.wav", "completed", "pending"⟩], []⟩
        [] 200).published →
        s.asrStatus = "queued") ∧
    (∀ p ∈ (enqueueMissing 0 3600
        ⟨[⟨"s1", "2025-01-01T12:00:00+00:00", some "a.wav", "completed", "pending"⟩], []⟩
        [] 200).published,
      p ∉ (enqueueMissing 1 3600
            (enqueueMissing 0 3600
              ⟨[⟨"s1", "2025-01-01T12:00:00+00:00", some "a.wav", "completed", "pending"⟩], []⟩
              [] 200).db
            (enqueueMissing 0 3600
              ⟨[⟨"s1", "2025-01-01T12:00:00+00:00", some "a.wav", "completed", "pending"⟩], []⟩
              [] 200).redis 200).published) :=
  asr_enqueue_dedupe_at_most_once 0 1 3600
    ⟨[⟨"s1", "2025-01-01T12:00:00+00:00", some "a.wav", "completed", "pending"⟩], []⟩
    [] 200 (by decide) (by decide)

/-! Read-API pagination (`mobasher/api/routers.py`). -/

/-- A `channels` row (the columns the channel listing consults). -/
structure ChannelRow where
  id : String
  name : String
  url : String
  active : Bool
  createdAt : Int
deriving DecidableEq, Repr

/-- Translation of `repositories.list_channels`: optionally keep only
active channels, order by `created_at` ascending, then offset and limit. -/
def listChannels (db : List ChannelRow) (activeOnly : Bool) (limit offset : Nat) :
    List ChannelRow :=
  ((sortBy (fun a b => decide (a.createdAt ≤ b.createdAt))
    (if activeOnly then db.filter (fun c => c.active) else db)).drop offset).take limit

/-- Translation of `repositories.list_segments`: apply the optional
channel / start / end / status filters (string filters only when the
Python value is truthy), order by `started_at` descending, then offset
and limit. -/
def listSegmentsApi (db : SegmentDB) (channelId : Option String)
    (start endT : Option DateTime) (status : Option String) (limit offset : Nat) :
    List SegmentRow :=
  let rows := if pyTruthyStr channelId then
      db.filter (fun s => s.channelId == channelId.getD "") else db
  let rows := match start with
    | some t => rows.filter (fun s => decide (t.toSec ≤ s.startedAt.toSec))
    | none => rows
  let rows := match endT with
    | some t => rows.filter (fun s => decide (s.startedAt.toSec < t.toSec))
    | none => rows
  let rows := if pyTruthyStr status then
      rows.filter (fun s => s.status == status.getD "") else rows
  ((sortBy (fun a b => decide (b.startedAt.toSec ≤ a.startedAt.toSec)) rows).drop offset).take limit

/-- The `meta` object of a paginated response. -/
structure PageMeta where
  limit : Nat
  offset : Nat
  nextOffset : Option Nat
deriving DecidableEq, Repr

/-- A paginated response body. -/
structure Paginated (α : Type) where
  items : List α
  meta : PageMeta
deriving DecidableEq, Repr

/-- Translation of `api_list_segments`: fetch the page and attach
`next_offset = offset + len(items) if len(items) == limit else None`. -/
def apiListSegments (db : SegmentDB) (channelId : Option String)
    (start endT : Option DateTime) (status : Option String) (limit offset : Nat) :
    Paginated SegmentRow :=
  let items := listSegmentsApi db channelId start endT status limit offset
  ⟨items, ⟨limit, offset,
    if items.length = limit then some (offset + items.length) else none⟩⟩

/-- Translation of `api_list_channels`, with the same `next_offset`
expression. -/
def apiListChannels (db : List ChannelRow) (activeOnly : Bool) (limit offset : Nat) :
    Paginated ChannelRow :=
  let items := listChannels db activeOnly limit offset
  ⟨items, ⟨limit, offset,
    if items.length = limit then some (offset + items.length) else none⟩⟩

theorem nextOffset_characterisation (items : List α) (limit offset n : Nat) :
    ((if items.length = limit then some (offset + items.length) else none) = some n
      ↔ (items.length = limit ∧ n = offset + items.length)) := by
  split_ifs with h
  · simp [h, eq_comm]
  · simp [h]

/-- C7: for the paginated endpoints, `meta.next_offset` is present exactly
when the page is full (`len(items) = limit`), in which case it equals
`offset + len(items)`; and a page never exceeds the requested limit. -/
theorem pagination_next_offset_iff_full_page
    (db : SegmentDB) (cdb : List ChannelRow) (channelId : Option String)
    (start endT : Option DateTime) (status : Option String) (activeOnly : Bool)
    (limit offset : Nat) :
    (∀ n, (apiListSegments db channelId start endT status limit offset).meta.nextOffset = some n
      ↔ ((apiListSegments db channelId start endT status limit offset).items.length = limit
        ∧ n = offset + (apiListSegments db channelId start endT status limit offset).items.length)) ∧
    (∀ n, (apiListChannels cdb activeOnly limit offset).meta.nextOffset = some n
      ↔ ((apiListChannels cdb activeOnly limit offset).items.length = limit
        ∧ n = offset + (apiListChannels cdb activeOnly limit offset).items.length)) ∧
    (apiListSegments db channelId start endT status limit offset).items.length ≤ limit ∧
    (apiListChannels cdb activeOnly limit offset).items.length ≤ limit := by
  refine ⟨fun n => nextOffset_characterisation _ limit offset n,
    fun n => nextOffset_characterisation _ limit offset n, ?_, ?_⟩
  · exact List.length_take_le limit _
  · exact List.length_take_le limit _

/-! Retention job (`mobasher/storage/retention_jobs.py`). -/

/-- The pruneable stores, each as the list of its rows' time column
values (absolute seconds): `transcripts.segment_started_at`,
`segment_embeddings.segment_started_at`, `entities.started_at`,
`alerts.created_at`, and screenshot file mtimes. -/
structure RetDb where
  transcripts : List Int
  embeddings : List Int
  entities : List Int
  alerts : List Int
  screenshots : List Int
deriving DecidableEq, Repr

/-- Translation of `run_cleanup`: for transcripts and embeddings compute
`cutoff = now − retain_days`, count the rows strictly older, and delete
them unless dry-run (the delete is issued only when the count is
non-zero); walk the screenshot files and count/delete the ones whose
mtime is older than the screenshot cutoff. Entities and alerts are not
touched here. -/
def runCleanup (now : Int) (retainTranscriptsDays retainEmbeddingsDays retainScreenshotsDays : Nat)
    (dryRun : Bool) (db : RetDb) : RetDb × (Nat × Nat × Nat) :=
  let tCut := now - retainTranscriptsDays * 86400
  let eCut := now - retainEmbeddingsDays * 86400
  let sCut := now - retainScreenshotsDays * 86400
  let tCount := (db.transcripts.filter (fun t => decide (t < tCut))).length
  let transcripts := if !dryRun && tCount != 0 then
      db.transcripts.filter (fun t => !decide (t < tCut)) else db.transcripts
  let eCount := (db.embeddings.filter (fun t => decide (t < eCut))).length
  let embeddings := if !dryRun && eCount != 0 then
      db.embeddings.filter (fun t => !decide (t < eCut)) else db.embeddings
  let sCount := (db.screenshots.filter (fun t => decide (t < sCut))).length
  let screenshots := if !dryRun then
      db.screenshots.filter (fun t => !decide (t < sCut)) else db.screenshots
  let db2 : RetDb :=
    { db with
      transcripts := transcripts
      embeddings := embeddings
      screenshots := screenshots }
  (db2, (tCount, eCount, sCount))

/-- Translation of `retention_jobs.main` after argument parsing: run the
cleanup, then (for the report only) count entities and alerts older than
`now − retain_transcripts_days`; nothing further is deleted. Returns the
final store and the five reported numbers. -/
def retentionMain (now : Int) (retainTranscriptsDays retainEmbeddingsDays retainScreenshotsDays : Nat)
    (dryRun : Bool) (db : RetDb) : RetDb × (Nat × Nat × Nat × Nat × Nat) :=
  let res := runCleanup now retainTranscriptsDays retainEmbeddingsDays retainScreenshotsDays dryRun db
  let entCut := now - retainTranscriptsDays * 86400
  let entCount := (res.1.entities.filter (fun t => decide (t < entCut))).length
  let alCount := (res.1.alerts.filter (fun t => decide (t < entCut))).length
  (res.1, (res.2.1, res.2.2.1, res.2.2.2, entCount, alCount))

/-- C8 counterexample: with one entity and one alert 400 days old
(cutoff 365 days), a non-dry-run retention pass reports them as old
(counts 1) yet leaves both rows in place — the claim that the non-dry-run
mode deletes the reported rows of the `entities` and `alerts` tables is
false at this input. -/
theorem retention_leaves_old_entities_and_alerts :
    ((-34560000 : Int) < 0 - 365 * 86400) ∧
    (retentionMain 0 365 365 90 false ⟨[], [], [-34560000], [-34560000], []⟩).1.entities
      = [-34560000] ∧
    (retentionMain 0 365 365 90 false ⟨[], [], [-34560000], [-34560000], []⟩).1.alerts
      = [-34560000] ∧
    (retentionMain 0 365 365 90 false ⟨[], [], [-34560000], [-34560000], []⟩).2.2.2.2.1 = 1 ∧
    (retentionMain 0 365 365 90 false ⟨[], [], [-34560000], [-34560000], []⟩).2.2.2.2.2 = 1 := by
  exact ⟨by decide, by decide, by decide, by decide, by decide⟩

theorem filter_not_of_none_old (p : α → Bool) (l : List α)
    (h : (l.filter p).length = 0) : l.filter (fun x => !p x) = l := by
  rw [List.length_eq_zero] at h
  refine List.filter_eq_self.mpr (fun x hx => ?_)
  cases hpx : p x with
  | false => rfl
  | true =>
    have : x ∈ l.filter p := List.mem_filter.mpr ⟨hx, hpx⟩
    rw [h] at this
    cases this

/-- C8 amended: the retention job prunes only `transcripts` and
`segment_embeddings` (by `segment_started_at`, cutoff `now − retain_days`)
plus on-disk screenshots by mtime; a dry run changes nothing; a non-dry
run deletes exactly the counted rows of those stores; and `entities` and
`alerts` are merely counted for the report (against the transcripts
cutoff) and never deleted in either mode. -/
theorem retention_prunes_only_transcripts_embeddings_screenshots
    (now : Int) (rT rE rS : Nat) (db : RetDb) :
    (retentionMain now rT rE rS true db).1 = db ∧
    (retentionMain now rT rE rS false db).1.transcripts
      = db.transcripts.filter (fun t => !decide (t < now - rT * 86400)) ∧
    (retentionMain now rT rE rS false db).1.embeddings
      = db.embeddings.filter (fun t => !decide (t < now - rE * 86400)) ∧
    (retentionMain now rT rE rS false db).1.screenshots
      = db.screenshots.filter (fun t => !decide (t < now - rS * 86400)) ∧
    (retentionMain now rT rE rS false db).1.entities = db.entities ∧
    (retentionMain now rT rE rS false db).1.alerts = db.alerts ∧
    (∀ d : Bool, (retentionMain now rT rE rS d db).2
      = ((db.transcripts.filter (fun t => decide (t < now - rT * 86400))).length,
         (db.embeddings.filter (fun t => decide (t < now - rE * 86400))).length,
         (db.screenshots.filter (fun t => decide (t < now - rS * 86400))).length,
         (db.entities.filter (fun t => decide (t < now - rT * 86400))).length,
         (db.alerts.filter (fun t => decide (t < now - rT * 86400))).length)) := by
  have hT : ∀ l : List Int, ∀ c : Int,
      (if !false && ((l.filter (fun t => decide (t < c))).length != 0) then
        l.filter (fun t => !decide (t < c)) else l)
      = l.filter (fun t => !decide (t < c)) := by
    intro l c
    by_cases h : (l.filter (fun t => decide (t < c))).length = 0
    · simp only [h]
      rw [if_neg (by simp)]
      exact (filter_not_of_none_old _ l h).symm
    · rw [if_pos (by simp [h])]
  refine ⟨?_, ?_, ?_, ?_, ?_, ?_, ?_⟩
  · simp [retentionMain, runCleanup]
  · simp only [retentionMain, runCleanup]
    exact hT db.transcripts (now - rT * 86400)
  · simp only [retentionMain, runCleanup]
    exact hT db.embeddings (now - rE * 86400)
  · simp [retentionMain, runCleanup]
  · simp [retentionMain, runCleanup]
  · simp [retentionMain, runCleanup]
  · intro d
    cases d <;> simp [retentionMain, runCleanup]

/-! OCR span merging (`mobasher/vision/worker.py`, `ocr_segment`). -/

/-- An axis-aligned box `[x, y, w, h]` in pixels. -/
structure Box where
  x : Int
  y : Int
  w : Int
  h : Int
deriving DecidableEq, Repr

/-- Translation of the `_iou` helper of `ocr_segment`:
intersection-over-union of two boxes, `0` when the intersection is empty
or the union non-positive. -/
def iou (a b : Box) : ℚ :=
  let interW := max 0 (min (a.x + a.w) (b.x + b.w) - max a.x b.x)
  let interH := max 0 (min (a.y + a.h) (b.y + b.h) - max a.y b.y)
  let inter := interW * interH
  if inter ≤ 0 then 0
  else
    let union := a.w * a.h + b.w * b.h - inter
    if union > 0 then (inter : ℚ) / (union : ℚ) else 0

/-- Box union as computed in the span-extension branch. -/
def unionBox (a b : Box) : Box :=
  let nx := min a.x b.x
  let ny := min a.y b.y
  let nx2 := max (a.x + a.w) (b.x + b.w)
  let ny2 := max (a.y + a.h) (b.y + b.h)
  ⟨nx, ny, nx2 - nx, ny2 - ny⟩

/-- One aggregated per-region frame event, an `aggregated_frames` entry
as consumed by the dedupe loop (time, token-sorted text, union box, max
token height). -/
structure AggFrame where
  ts : ℚ
  text : String
  bbox : Box
  fontPx : Int
deriving DecidableEq, Repr

/-- The OCR merge thresholds of `VisionSettings`
(`ocr_iou_threshold`, `ocr_text_sim_threshold`, `ocr_merge_window_s`;
defaults 0.3, 0.6, 2.0). -/
structure OcrCfg where
  iouThreshold : ℚ
  textSimThreshold : ℚ
  mergeWindow : ℚ
deriving DecidableEq, Repr

/-- The default `VisionSettings` thresholds. -/
def defaultOcrCfg : OcrCfg := ⟨3 / 10, 6 / 10, 2⟩

/-- A span being built or emitted (`start`, `end`, text, box, font). -/
structure Span where
  start : ℚ
  stop : ℚ
  text : String
  bbox : Box
  fontPx : Int
deriving DecidableEq, Repr

/-- A fresh span opened from one frame event. -/
def spanOf (e : AggFrame) : Span := ⟨e.ts, e.ts, e.text, e.bbox, e.fontPx⟩

/-- The merge test of the loop: the event arrives within
`ocr_merge_window_s` of the span's end, text similarity reaches
`ocr_text_sim_threshold`, and box IoU reaches `ocr_iou_threshold`. -/
def mergeCond (sim : String → String → ℚ) (cfg : OcrCfg) (cur : Span) (e : AggFrame) : Prop :=
  e.ts - cur.stop ≤ cfg.mergeWindow ∧ cfg.textSimThreshold ≤ sim cur.text e.text
    ∧ cfg.iouThreshold ≤ iou cur.bbox e.bbox

instance (sim : String → String → ℚ) (cfg : OcrCfg) (cur : Span) (e : AggFrame) :
    Decidable (mergeCond sim cfg cur e) := by
  unfold mergeCond
  infer_instance

/-- The span-extension branch: update the end time, take the union box
and the maximum font height. -/
def extendSpan (cur : Span) (e : AggFrame) : Span :=
  { cur with
    stop := e.ts
    bbox := unionBox cur.bbox e.bbox
    fontPx := max cur.fontPx e.fontPx }

/-- The dedupe loop of `ocr_segment` from a current span over the
remaining time-ordered events: extend on a merge, otherwise finalise the
span and start a new one; the last span is always emitted. -/
def mergeFrom (sim : String → String → ℚ) (cfg : OcrCfg) (cur : Span) :
    List AggFrame → List Span
  | [] => [cur]
  | e :: rest =>
    if mergeCond sim cfg cur e then mergeFrom sim cfg (extendSpan cur e) rest
    else cur :: mergeFrom sim cfg (spanOf e) rest

/-- The whole dedupe pass over one region's events in ascending time
order. -/
def mergeSpans (sim : String → String → ℚ) (cfg : OcrCfg) : List AggFrame → List Span
  | [] => []
  | e :: rest => mergeFrom sim cfg (spanOf e) rest

/-- The similarity fallback of `ocr_segment` when `rapidfuzz` is
unavailable: exact match scores 1, anything else 0. -/
def eqSim (x y : String) : ℚ := if x = y then 1 else 0

/-- C9: an event is merged into the current span exactly when it falls
within the merge window and passes both the text-similarity and IoU
thresholds; merging updates the end time, takes the box union and the
maximum font height, and otherwise the span is finalised and a new one
starts. Three frames at 0 s, 0.33 s and 0.66 s carrying the same text in
the same box (IoU 1 ≥ 0.5) collapse to exactly one span with start 0 and
end 0.66 under the default thresholds. -/
theorem ocr_span_merge_characterisation
    (sim : String → String → ℚ) (cfg : OcrCfg) (cur : Span) (e : AggFrame) :
    (mergeFrom sim cfg cur [e]
      = if mergeCond sim cfg cur e
        then [⟨cur.start, e.ts, cur.text, unionBox cur.bbox e.bbox, max cur.fontPx e.fontPx⟩]
        else [cur, spanOf e]) ∧
    ((mergeFrom sim cfg cur [e]).length = 1 ↔ mergeCond sim cfg cur e) ∧
    mergeSpans eqSim defaultOcrCfg
        [⟨0, "عاجل", ⟨10, 20, 100, 30⟩, 12⟩,
         ⟨33 / 100, "عاجل", ⟨10, 20, 100, 30⟩, 12⟩,
         ⟨66 / 100, "عاجل", ⟨10, 20, 100, 30⟩, 12⟩]
      = [⟨0, 66 / 100, "عاجل", ⟨10, 20, 100, 30⟩, 12⟩] := by
  have hstep : mergeFrom sim cfg cur [e]
      = if mergeCond sim cfg cur e
        then [⟨cur.start, e.ts, cur.text, unionBox cur.bbox e.bbox, max cur.fontPx e.fontPx⟩]
        else [cur, spanOf e] := by
    rw [mergeFrom]
    split_ifs with h
    · rw [mergeFrom]
      rfl
    · rw [mergeFrom]
  refine ⟨hstep, ?_, ?_⟩
  · rw [hstep]
    split_ifs with h
    · simp [h]
    · simp [h]
  · have hiou : iou ⟨10, 20, 100, 30⟩ ⟨10, 20, 100, 30⟩ = 1 := by
      norm_num [iou]
    have huni : unionBox ⟨10, 20, 100, 30⟩ ⟨10, 20, 100, 30⟩ = ⟨10, 20, 100, 30⟩ := by
      simp [unionBox]
    have hsim : eqSim "عاجل" "عاجل" = 1 := by simp [eqSim]
    have hc1 : mergeCond eqSim defaultOcrCfg
        (spanOf ⟨0, "عاجل", ⟨10, 20, 100, 30⟩, 12⟩)
        ⟨33 / 100, "عاجل", ⟨10, 20, 100, 30⟩, 12⟩ := by
      refine ⟨by norm_num [spanOf, defaultOcrCfg], ?_, ?_⟩
      · rw [spanOf]
        rw [hsim]
        norm_num [defaultOcrCfg]
      · rw [spanOf]
        rw [hiou]
        norm_num [defaultOcrCfg]
    have hext1 : extendSpan (spanOf ⟨0, "عاجل", ⟨10, 20, 100, 30⟩, 12⟩)
        ⟨33 / 100, "عاجل", ⟨10, 20, 100, 30⟩, 12⟩
        = ⟨0, 33 / 100, "عاجل", ⟨10, 20, 100, 30⟩, 12⟩ := by
      simp [extendSpan, spanOf, huni]
    have hc2 : mergeCond eqSim defaultOcrCfg
        (⟨0, 33 / 100, "عاجل", ⟨10, 20, 100, 30⟩, 12⟩ : Span)
        ⟨66 / 100, "عاجل", ⟨10, 20, 100, 30⟩, 12⟩ := by
      refine ⟨by norm_num [defaultOcrCfg], ?_, ?_⟩
      · rw [show (⟨0, 33 / 100, "عاجل", ⟨10, 20, 100, 30⟩, 12⟩ : Span).text = "عاجل" from rfl]
        rw [hsim]
        norm_num [defaultOcrCfg]
      · rw [show (⟨0, 33 / 100, "عاجل", ⟨10, 20, 100, 30⟩, 12⟩ : Span).bbox
            = ⟨10, 20, 100, 30⟩ from rfl]
        rw [hiou]
        norm_num [defaultOcrCfg]
    have hext2 : extendSpan (⟨0, 33 / 100, "عاجل", ⟨10, 20, 100, 30⟩, 12⟩ : Span)
        ⟨66 / 100, "عاجل", ⟨10, 20, 100, 30⟩, 12⟩
        = ⟨0, 66 / 100, "عاجل", ⟨10, 20, 100, 30⟩, 12⟩ := by
      simp [extendSpan, huni]
    rw [mergeSpans]
    rw [mergeFrom]
    rw [if_pos hc1]
    rw [hext1]
    rw [mergeFrom]
    rw [if_pos hc2]
    rw [hext2]
    rw [mergeFrom]

end Mobasher
